import Mathlib

/-!
Verification of the Intcode virtual machine from `src/intcode/src/lib.rs`.

The Rust source is shallowly embedded: the tape is a `List Int` (Rust
`Vec<i64>`), `usize` casts of `i64` values are modelled by reduction modulo
`2^64` (the wrapping semantics of Rust's `as usize`), `u32` casts by
reduction modulo `2^32`, and `i64` arithmetic by two's-complement wrapping
(`wrap64`).  A Rust `panic!` is modelled by returning `none`.  The engine is
generic over the input and output carriers, exactly as the Rust `Computer`
is generic over its `Input` and `Output` trait parameters: `tryRead` models
`Input::try_read` (the only input operation the engine calls) and `write`
models `Output::write`, whose `Result` the engine discards (`let _ = ...`);
the `Bool` component records whether the write reported success.
-/

namespace Intcode

/-- Rust `const MAX_MEMORY: usize = 1024 * 1024;` -/
def MAX_MEMORY : Nat := 1024 * 1024

/-- Rust `x as usize` for an `i64` value: wrapping conversion, i.e. the
representative of `x` modulo `2^64`. -/
def intToUsize (x : Int) : Nat := (x % (2 ^ 64 : Int)).toNat

/-- Rust `x as u32` for an `i64` value: wrapping conversion modulo `2^32`. -/
def intToU32 (x : Int) : Nat := (x % (2 ^ 32 : Int)).toNat

/-- Two's-complement wrap-around of an integer into the `i64` range,
modelling Rust release-mode `i64` arithmetic. -/
def wrap64 (x : Int) : Int := (x + 2 ^ 63) % 2 ^ 64 - 2 ^ 63

/-- Rust `enum ParameterMode { Position, Immediate, Relative }` -/
inductive ParameterMode where
  | Position
  | Immediate
  | Relative
deriving DecidableEq, Repr

/-- Rust `impl From<u32> for ParameterMode` — `none` models the
`panic!("Invalid parameter mode: ...")` arm. -/
def paramMode : Nat → Option ParameterMode
  | 0 => some ParameterMode.Position
  | 1 => some ParameterMode.Immediate
  | 2 => some ParameterMode.Relative
  | _ => none

/-- Rust `pub enum RunState` -/
inductive RunState where
  | NotYetStarted
  | NeedInput
  | Stopped (v : Int)
deriving DecidableEq, Repr

/-- Rust `enum NextState` -/
inductive NextState where
  | ContinueAbsolute (offset : Nat)
  | ContinueRelative (offset : Int)
  | NeedInput
  | Terminate
deriving DecidableEq, Repr

/-- Rust `pub struct Computer<I, O>`: the engine state. The `_id` field of the
Rust struct is never read and is omitted. -/
structure Machine (ι ω : Type) where
  tape : List Int
  input : ι
  output : ω
  last_output : Int
  ip : Nat
  run_state : RunState
  relative_base : Int
deriving DecidableEq, Repr

variable {ι ω : Type}

/-- Rust `Computer::new(id, program, input, output)` (the `_id` argument is
dropped since it is never read). -/
def Machine.new (program : List Int) (input : ι) (output : ω) : Machine ι ω :=
  { tape := program
    input := input
    output := output
    last_output := 0
    ip := 0
    run_state := RunState.NotYetStarted
    relative_base := 0 }

/-- Rust `fn load(&self, address: usize) -> MemoryType`: the stored value below
the current extent, `0` at or beyond it; never fails. -/
def load (tape : List Int) (address : Nat) : Int :=
  if h : address < tape.length then tape.get ⟨address, h⟩ else 0

/-- Rust `fn store(&mut self, address: usize, value: MemoryType)`: grows the tape
(zero-filled) to `address + 1` cells when `address` is at or past the current
length and below `MAX_MEMORY`; `none` models the
`panic!("Attempt to resize beyond memory limit ...")`. -/
def store (tape : List Int) (address : Nat) (value : Int) : Option (List Int) :=
  if address ≥ tape.length then
    if address < MAX_MEMORY then
      some (((tape ++ List.replicate (address + 1 - tape.length) 0).set address value))
    else
      none
  else
    some (tape.set address value)

/-- Rust `fn load_operand(&self, offset: usize, mode: ParameterMode)`. -/
def load_operand (m : Machine ι ω) (offset : Nat) : ParameterMode → Int
  | ParameterMode.Position => load m.tape (intToUsize (load m.tape offset))
  | ParameterMode.Immediate => load m.tape offset
  | ParameterMode.Relative =>
      load m.tape (intToUsize (load m.tape offset + m.relative_base))

/-- Rust `fn store_operand(&mut self, offset: usize, mode: ParameterMode, value)`:
returns the new tape; `none` models both the
`panic!("Write to immediate not allowed!")` arm and a failing `store`. -/
def store_operand (m : Machine ι ω) (offset : Nat) (mode : ParameterMode)
    (value : Int) : Option (List Int) :=
  match mode with
  | ParameterMode.Position => store m.tape (intToUsize (load m.tape offset)) value
  | ParameterMode.Relative =>
      store m.tape (intToUsize (load m.tape offset + m.relative_base)) value
  | ParameterMode.Immediate => none

/-- Rust `fn should_jump(condition, opcode) -> bool`; `none` models the
`panic!("Unexpected opcode")` arm. -/
def should_jump (condition : Int) (opcode : Nat) : Option Bool :=
  match opcode with
  | 5 => some (condition ≠ 0)
  | 6 => some (condition = 0)
  | _ => none

/-- Rust `fn operation(a, b, opcode) -> MemoryType`; `none` models the
`panic!("Unexpected opcode")` arm.  Add and multiply wrap at the `i64`
boundary. -/
def operation (a b : Int) (opcode : Nat) : Option Int :=
  match opcode with
  | 1 => some (wrap64 (a + b))
  | 2 => some (wrap64 (a * b))
  | 7 => some (if a < b then 1 else 0)
  | 8 => some (if a = b then 1 else 0)
  | _ => none

/-- The two-digit opcode of an instruction word (`instruction % 100`). -/
def opcodeOf (w : Nat) : Nat := w % 100

/-- The mode digit of operand `k` (1-indexed) of an instruction word:
`(w / 10^(k+1)) % 10`. -/
def modeDigit (w : Nat) (k : Nat) : Nat := (w / 10 ^ (k + 1)) % 10

/-- Rust `fn execute_instruction(&mut self) -> NextState`: fetch, decode and
execute one instruction.  `none` models every `panic!` path (invalid mode
digit, invalid opcode, write through immediate mode, growth past the memory
ceiling). -/
def executeInstruction (tryRead : ι → Option Int × ι) (write : ω → Int → ω × Bool)
    (m : Machine ι ω) : Option (NextState × Machine ι ω) :=
  match paramMode (modeDigit (intToU32 (load m.tape m.ip)) 1),
      paramMode (modeDigit (intToU32 (load m.tape m.ip)) 2),
      paramMode (modeDigit (intToU32 (load m.tape m.ip)) 3) with
  | some mode0, some mode1, some mode2 =>
    match opcodeOf (intToU32 (load m.tape m.ip)) with
    | 1 | 2 | 7 | 8 =>
      match operation (load_operand m (m.ip + 1) mode0) (load_operand m (m.ip + 2) mode1)
          (opcodeOf (intToU32 (load m.tape m.ip))) with
      | some r =>
        match store_operand m (m.ip + 3) mode2 r with
        | some tape' => some (NextState.ContinueRelative 4, { m with tape := tape' })
        | none => none
      | none => none
    | 3 =>
      match tryRead m.input with
      | (none, input') => some (NextState.NeedInput, { m with input := input' })
      | (some v, input') =>
        match store_operand { m with input := input' } (m.ip + 1) mode0 v with
        | some tape' =>
            some (NextState.ContinueRelative 2, { m with input := input', tape := tape' })
        | none => none
    | 4 =>
      some (NextState.ContinueRelative 2,
        { m with output := (write m.output (load_operand m (m.ip + 1) mode0)).1,
                 last_output := load_operand m (m.ip + 1) mode0 })
    | 5 | 6 =>
      match should_jump (load_operand m (m.ip + 1) mode0)
          (opcodeOf (intToU32 (load m.tape m.ip))) with
      | some true =>
          some (NextState.ContinueAbsolute
            (intToUsize (load_operand m (m.ip + 2) mode1)), m)
      | some false => some (NextState.ContinueRelative 3, m)
      | none => none
    | 9 =>
      some (NextState.ContinueRelative 2,
        { m with relative_base :=
            wrap64 (m.relative_base + load_operand m (m.ip + 1) mode0) })
    | 99 => some (NextState.Terminate, m)
    | _ => none
  | _, _, _ => none

/-- Outcome of a `resume` call in the embedding: the returned `RunState`
together with the machine, or a fatal abort (`fatal`, a Rust panic), or fuel
exhaustion (`outOfFuel`, which only means the chosen bound was too small —
the Rust loop is unbounded). -/
inductive RunOutcome (ι ω : Type) where
  | done (s : RunState) (m : Machine ι ω)
  | fatal
  | outOfFuel
deriving DecidableEq, Repr

/-- The `loop { match self.execute_instruction() { ... } }` body of
`resume`, bounded by fuel. -/
def resumeLoop (tryRead : ι → Option Int × ι) (write : ω → Int → ω × Bool) :
    Nat → Machine ι ω → RunOutcome ι ω
  | 0, _ => RunOutcome.outOfFuel
  | fuel + 1, m =>
    match executeInstruction tryRead write m with
    | none => RunOutcome.fatal
    | some (ns, m') =>
      match ns with
      | NextState.ContinueAbsolute offset =>
          resumeLoop tryRead write fuel { m' with ip := offset }
      | NextState.ContinueRelative offset =>
          resumeLoop tryRead write fuel
            { m' with ip := intToUsize ((m'.ip : Int) + offset) }
      | NextState.NeedInput =>
          RunOutcome.done RunState.NeedInput { m' with run_state := RunState.NeedInput }
      | NextState.Terminate =>
          RunOutcome.done (RunState.Stopped m'.last_output)
            { m' with run_state := RunState.Stopped m'.last_output }

/-- Rust `pub fn resume(&mut self) -> RunState`: returns immediately when already
`Stopped`, otherwise enters the instruction loop. -/
def resume (tryRead : ι → Option Int × ι) (write : ω → Int → ω × Bool)
    (fuel : Nat) (m : Machine ι ω) : RunOutcome ι ω :=
  match m.run_state with
  | RunState.Stopped v => RunOutcome.done (RunState.Stopped v) m
  | _ => resumeLoop tryRead write fuel m

/-- Rust `pub fn run_program(&mut self) -> RunState` is a synonym of `resume`. -/
def run_program (tryRead : ι → Option Int × ι) (write : ω → Int → ω × Bool)
    (fuel : Nat) (m : Machine ι ω) : RunOutcome ι ω :=
  resume tryRead write fuel m

/-- Rust `Input::try_read` of the `VecDeque` carrier: pop the front, `none` when
empty. -/
def tryReadQueue : List Int → Option Int × List Int
  | [] => (none, [])
  | x :: xs => (some x, xs)

/-- Rust `Output::write` of the `Vec` carrier: push back, always succeeds. -/
def writeVec (xs : List Int) (x : Int) : List Int × Bool := (xs ++ [x], true)

/-- Rust `Output::write` of the discarding `()` carrier used by the tests: drop
the value, always succeed. -/
def writeUnit (_u : Unit) (_x : Int) : Unit × Bool := ((), true)

/-- The final tape of a program run to completion with an empty queue input
and the discarding output carrier, as in the Rust `example_program_*` tests. -/
def runTape (fuel : Nat) (program : List Int) : Option (List Int) :=
  match run_program tryReadQueue writeUnit fuel (Machine.new program [] ()) with
  | RunOutcome.done (RunState.Stopped _) m => some m.tape
  | _ => none

/-- The collected output of a program run to completion with a queue input
and a `Vec` output, as in the Rust `input_output` and `quine` tests. -/
def runOutputs (fuel : Nat) (program : List Int) (inputs : List Int) :
    Option (List Int) :=
  match run_program tryReadQueue writeVec fuel (Machine.new program inputs []) with
  | RunOutcome.done (RunState.Stopped _) m => some m.output
  | _ => none

/-- The opcodes of the instructions executed by the `resume` loop, in order,
recorded alongside `resumeLoop`: empty once the loop stops, suspends, aborts
or runs out of fuel. -/
def traceLoop (tryRead : ι → Option Int × ι) (write : ω → Int → ω × Bool) :
    Nat → Machine ι ω → List Nat
  | 0, _ => []
  | fuel + 1, m =>
    match executeInstruction tryRead write m with
    | none => [opcodeOf (intToU32 (load m.tape m.ip))]
    | some (ns, m') =>
      opcodeOf (intToU32 (load m.tape m.ip)) ::
        (match ns with
         | NextState.ContinueAbsolute offset =>
             traceLoop tryRead write fuel { m' with ip := offset }
         | NextState.ContinueRelative offset =>
             traceLoop tryRead write fuel
               { m' with ip := intToUsize ((m'.ip : Int) + offset) }
         | _ => [])

section StepLemmas

variable {tr : ι → Option Int × ι} {wr : ω → Int → ω × Bool}

/-- An instruction whose first mode digit does not decode is fatal. -/
theorem exec_fatal_of_bad_digit1 (m : Machine ι ω)
    (h : 3 ≤ modeDigit (intToU32 (load m.tape m.ip)) 1) :
    executeInstruction tr wr m = none := by
  have h1 : paramMode (modeDigit (intToU32 (load m.tape m.ip)) 1) = none := by
    obtain ⟨n, hn⟩ : ∃ n, modeDigit (intToU32 (load m.tape m.ip)) 1 = n + 3 :=
      ⟨modeDigit (intToU32 (load m.tape m.ip)) 1 - 3, by omega⟩
    rw [hn]; rfl
  unfold executeInstruction
  rw [h1]

/-- An `Input` instruction whose carrier has no value suspends, leaving the
tape, instruction pointer and relative base untouched. -/
theorem exec_input_none {m : Machine ι ω} {w : Nat} {pm0 pm1 pm2 : ParameterMode} {inp : ι}
    (h0 : intToU32 (load m.tape m.ip) = w) (hop : opcodeOf w = 3)
    (h1 : paramMode (modeDigit w 1) = some pm0)
    (h2 : paramMode (modeDigit w 2) = some pm1)
    (h3 : paramMode (modeDigit w 3) = some pm2)
    (hr : tr m.input = (none, inp)) :
    executeInstruction tr wr m = some (NextState.NeedInput, { m with input := inp }) := by
  unfold executeInstruction
  rw [h0, hop, h1, h2, h3, hr]

/-- An `Input` instruction with an available value stores it through the
first operand and advances by 2. -/
theorem exec_input_some {m : Machine ι ω} {w : Nat} {pm0 pm1 pm2 : ParameterMode}
    {v : Int} {inp : ι} {tape' : List Int}
    (h0 : intToU32 (load m.tape m.ip) = w) (hop : opcodeOf w = 3)
    (h1 : paramMode (modeDigit w 1) = some pm0)
    (h2 : paramMode (modeDigit w 2) = some pm1)
    (h3 : paramMode (modeDigit w 3) = some pm2)
    (hr : tr m.input = (some v, inp))
    (hst : store_operand { m with input := inp } (m.ip + 1) pm0 v = some tape') :
    executeInstruction tr wr m =
      some (NextState.ContinueRelative 2, { m with input := inp, tape := tape' }) := by
  unfold executeInstruction
  rw [h0, hop, h1, h2, h3, hr]
  dsimp only
  rw [hst]

/-- An `Output` instruction emits the first operand through the carrier's
`write`, whose result is discarded, records it as last output and advances
by 2. -/
theorem exec_output {m : Machine ι ω} {w : Nat} {pm0 pm1 pm2 : ParameterMode}
    (h0 : intToU32 (load m.tape m.ip) = w) (hop : opcodeOf w = 4)
    (h1 : paramMode (modeDigit w 1) = some pm0)
    (h2 : paramMode (modeDigit w 2) = some pm1)
    (h3 : paramMode (modeDigit w 3) = some pm2) :
    executeInstruction tr wr m =
      some (NextState.ContinueRelative 2,
        { m with output := (wr m.output (load_operand m (m.ip + 1) pm0)).1,
                 last_output := load_operand m (m.ip + 1) pm0 }) := by
  unfold executeInstruction
  rw [h0, hop, h1, h2, h3]

/-- A `Halt` instruction terminates the run without touching the machine. -/
theorem exec_halt {m : Machine ι ω} {w : Nat} {pm0 pm1 pm2 : ParameterMode}
    (h0 : intToU32 (load m.tape m.ip) = w) (hop : opcodeOf w = 99)
    (h1 : paramMode (modeDigit w 1) = some pm0)
    (h2 : paramMode (modeDigit w 2) = some pm1)
    (h3 : paramMode (modeDigit w 3) = some pm2) :
    executeInstruction tr wr m = some (NextState.Terminate, m) := by
  unfold executeInstruction
  rw [h0, hop, h1, h2, h3]

/-- Every instruction other than `Output` leaves `last_output` unchanged. -/
theorem exec_last_output_of_ne {m m' : Machine ι ω} {ns : NextState}
    (h : executeInstruction tr wr m = some (ns, m'))
    (hop : opcodeOf (intToU32 (load m.tape m.ip)) ≠ 4) :
    m'.last_output = m.last_output := by
  unfold executeInstruction at h
  split at h
  case _ =>
    split at h <;>
      first
        | exact absurd (by assumption) hop
        | (repeat' split at h) <;>
            first
              | (cases h; rfl)
              | exact Option.noConfusion h
  case _ => exact Option.noConfusion h

/-- Unfolding lemma: a relative continuation advances the instruction
pointer by the (wrapped) signed offset and loops. -/
theorem resumeLoop_relative {m m' : Machine ι ω} {o : Int} {fuel : Nat}
    (h : executeInstruction tr wr m = some (NextState.ContinueRelative o, m')) :
    resumeLoop tr wr (fuel + 1) m =
      resumeLoop tr wr fuel { m' with ip := intToUsize ((m'.ip : Int) + o) } := by
  conv_lhs => rw [resumeLoop]
  rw [h]

/-- Unfolding lemma: an absolute continuation jumps and loops. -/
theorem resumeLoop_absolute {m m' : Machine ι ω} {o : Nat} {fuel : Nat}
    (h : executeInstruction tr wr m = some (NextState.ContinueAbsolute o, m')) :
    resumeLoop tr wr (fuel + 1) m = resumeLoop tr wr fuel { m' with ip := o } := by
  conv_lhs => rw [resumeLoop]
  rw [h]

/-- Unfolding lemma: a `NeedInput` step suspends with the run state
recorded. -/
theorem resumeLoop_needInput {m m' : Machine ι ω} {fuel : Nat}
    (h : executeInstruction tr wr m = some (NextState.NeedInput, m')) :
    resumeLoop tr wr (fuel + 1) m =
      RunOutcome.done RunState.NeedInput { m' with run_state := RunState.NeedInput } := by
  conv_lhs => rw [resumeLoop]
  rw [h]

/-- Unfolding lemma: a terminating step stops with the last output
recorded. -/
theorem resumeLoop_terminate {m m' : Machine ι ω} {fuel : Nat}
    (h : executeInstruction tr wr m = some (NextState.Terminate, m')) :
    resumeLoop tr wr (fuel + 1) m =
      RunOutcome.done (RunState.Stopped m'.last_output)
        { m' with run_state := RunState.Stopped m'.last_output } := by
  conv_lhs => rw [resumeLoop]
  rw [h]

/-- The function `resume` enters the instruction loop whenever the machine is not
`Stopped`. -/
theorem resume_not_stopped {m : Machine ι ω} {fuel : Nat}
    (h : ∀ v, m.run_state ≠ RunState.Stopped v) :
    resume tr wr fuel m = resumeLoop tr wr fuel m := by
  unfold resume
  cases hrs : m.run_state with
  | NotYetStarted => rfl
  | NeedInput => rfl
  | Stopped v => exact absurd hrs (h v)

/-- Mode digits other than 0, 1, 2 do not decode (`From<u32>` would abort). -/
theorem paramMode_eq_none (d : Nat) (h : 3 ≤ d) : paramMode d = none := by
  obtain ⟨n, rfl⟩ : ∃ n, d = n + 3 := ⟨d - 3, by omega⟩
  rfl

/-- An instruction whose second mode digit does not decode is fatal. -/
theorem exec_fatal_of_bad_digit2 (m : Machine ι ω)
    (h : 3 ≤ modeDigit (intToU32 (load m.tape m.ip)) 2) :
    executeInstruction tr wr m = none := by
  have h2 := paramMode_eq_none _ h
  unfold executeInstruction
  cases h1 : paramMode (modeDigit (intToU32 (load m.tape m.ip)) 1) with
  | none => rfl
  | some pm => rw [h2]

/-- An instruction whose third mode digit does not decode is fatal. -/
theorem exec_fatal_of_bad_digit3 (m : Machine ι ω)
    (h : 3 ≤ modeDigit (intToU32 (load m.tape m.ip)) 3) :
    executeInstruction tr wr m = none := by
  have h3 := paramMode_eq_none _ h
  unfold executeInstruction
  cases h1 : paramMode (modeDigit (intToU32 (load m.tape m.ip)) 1) with
  | none => rfl
  | some pm0 =>
    cases h2 : paramMode (modeDigit (intToU32 (load m.tape m.ip)) 2) with
    | none => rfl
    | some pm1 => rw [h3]

end StepLemmas

/-- C1: opcode and mode-digit extraction from an instruction word, the
Position/Immediate/Relative mapping of the digits 0/1/2 with every other
digit fatal, and the operand-resolution equations of `load_operand` and
`store_operand` (with Rust's `as usize` wrapping cast made explicit, and a
write through Immediate mode fatal). -/
theorem C1_decode_and_operand_resolution :
    (∀ w : Nat, opcodeOf w = w % 100) ∧
    (∀ w k : Nat, modeDigit w k = (w / 10 ^ (k + 1)) % 10) ∧
    (paramMode 0 = some ParameterMode.Position ∧
      paramMode 1 = some ParameterMode.Immediate ∧
      paramMode 2 = some ParameterMode.Relative ∧
      (∀ d : Nat, 3 ≤ d → paramMode d = none)) ∧
    (∀ (ι ω : Type) (m : Machine ι ω) (offset : Nat) (v : Int),
      load_operand m offset ParameterMode.Position =
        load m.tape (intToUsize (load m.tape offset)) ∧
      load_operand m offset ParameterMode.Immediate = load m.tape offset ∧
      load_operand m offset ParameterMode.Relative =
        load m.tape (intToUsize (load m.tape offset + m.relative_base)) ∧
      store_operand m offset ParameterMode.Position v =
        store m.tape (intToUsize (load m.tape offset)) v ∧
      store_operand m offset ParameterMode.Relative v =
        store m.tape (intToUsize (load m.tape offset + m.relative_base)) v ∧
      store_operand m offset ParameterMode.Immediate v = none) ∧
    (∀ (ι ω : Type) (tr : ι → Option Int × ι) (wr : ω → Int → ω × Bool)
        (m : Machine ι ω),
      (3 ≤ modeDigit (intToU32 (load m.tape m.ip)) 1 ∨
       3 ≤ modeDigit (intToU32 (load m.tape m.ip)) 2 ∨
       3 ≤ modeDigit (intToU32 (load m.tape m.ip)) 3) →
      executeInstruction tr wr m = none) := by
  refine ⟨fun w => rfl, fun w k => rfl, ⟨rfl, rfl, rfl, paramMode_eq_none⟩,
    fun ι ω m offset v => ⟨rfl, rfl, rfl, rfl, rfl, rfl⟩,
    fun ι ω tr wr m h => ?_⟩
  rcases h with h | h | h
  · exact exec_fatal_of_bad_digit1 m h
  · exact exec_fatal_of_bad_digit2 m h
  · exact exec_fatal_of_bad_digit3 m h

/-- Witness for C1 at concrete inputs: digit 3 does not decode, and the
instruction word 30002 (third mode digit 3) aborts the machine. -/
theorem C1_decode_and_operand_resolution_witness :
    paramMode 7 = none ∧
    executeInstruction tryReadQueue writeVec
      (Machine.new [30002, 0, 0, 0, 99] [] []) = none :=
  ⟨C1_decode_and_operand_resolution.2.2.1.2.2.2 7 (by omega),
   C1_decode_and_operand_resolution.2.2.2.2 (List Int) (List Int) tryReadQueue writeVec
     (Machine.new [30002, 0, 0, 0, 99] [] []) (Or.inr (Or.inr (by decide)))⟩

set_option maxRecDepth 40000 in
/-- C2: the four canonical self-modifying micro-programs, run with an empty
queue input and the discarding output carrier until halt, leave exactly the
listed final tapes. -/
theorem C2_canonical_self_modifying_programs :
    runTape 20 [1, 0, 0, 0, 99] = some [2, 0, 0, 0, 99] ∧
    runTape 20 [2, 3, 0, 3, 99] = some [2, 3, 0, 6, 99] ∧
    runTape 20 [2, 4, 4, 5, 99, 0] = some [2, 4, 4, 5, 99, 9801] ∧
    runTape 20 [1, 1, 1, 4, 99, 5, 6, 0, 99] = some [30, 1, 1, 4, 2, 5, 6, 0, 99] := by
  decide

/-- C3: once the run state is `Stopped v`, both `resume` and `run_program`
return `Stopped v` again and leave the entire machine — tape, instruction
pointer, relative base and the two I/O carriers — unchanged. -/
theorem C3_stopped_is_idempotent (ι ω : Type) (tr : ι → Option Int × ι)
    (wr : ω → Int → ω × Bool) (fuel : Nat) (m : Machine ι ω) (v : Int)
    (h : m.run_state = RunState.Stopped v) :
    resume tr wr fuel m = RunOutcome.done (RunState.Stopped v) m ∧
    run_program tr wr fuel m = RunOutcome.done (RunState.Stopped v) m := by
  constructor
  · unfold resume; rw [h]
  · unfold run_program resume; rw [h]

/-- Witness for C3 at a concrete stopped machine. -/
theorem C3_stopped_is_idempotent_witness :
    resume tryReadQueue writeVec 5
        ⟨[99], [], [7], 7, 0, RunState.Stopped 7, 0⟩ =
      RunOutcome.done (RunState.Stopped 7) ⟨[99], [], [7], 7, 0, RunState.Stopped 7, 0⟩ :=
  (C3_stopped_is_idempotent (List Int) (List Int) tryReadQueue writeVec 5
    ⟨[99], [], [7], 7, 0, RunState.Stopped 7, 0⟩ 7 rfl).1

/-- C4: an `Input` instruction whose non-blocking read finds no value makes
`resume` return `NeedInput`, leaving the tape, instruction pointer and
relative base exactly as they were (only the carrier's read effect and the
run state are recorded); a further `resume` re-attempts the very same
`Input` instruction at the same instruction pointer. -/
theorem C4_need_input_suspension (ι ω : Type) (tr : ι → Option Int × ι)
    (wr : ω → Int → ω × Bool) (fuel : Nat) (m : Machine ι ω) (w : Nat)
    (pm0 pm1 pm2 : ParameterMode) (inp : ι)
    (h0 : intToU32 (load m.tape m.ip) = w) (hop : opcodeOf w = 3)
    (h1 : paramMode (modeDigit w 1) = some pm0)
    (h2 : paramMode (modeDigit w 2) = some pm1)
    (h3 : paramMode (modeDigit w 3) = some pm2)
    (hread : tr m.input = (none, inp))
    (hrs : ∀ v, m.run_state ≠ RunState.Stopped v) :
    resume tr wr (fuel + 1) m =
      RunOutcome.done RunState.NeedInput
        { m with input := inp, run_state := RunState.NeedInput } ∧
    (∀ (fuel₂ : Nat) (inp₂ : ι), tr inp = (none, inp₂) →
      resume tr wr (fuel₂ + 1) { m with input := inp, run_state := RunState.NeedInput } =
        RunOutcome.done RunState.NeedInput
          { m with input := inp₂, run_state := RunState.NeedInput }) := by
  constructor
  · rw [resume_not_stopped hrs]
    exact resumeLoop_needInput (exec_input_none h0 hop h1 h2 h3 hread)
  · intro fuel₂ inp₂ hread₂
    rw [resume_not_stopped (fun v h => RunState.noConfusion h)]
    exact resumeLoop_needInput
      (exec_input_none (m := { m with input := inp, run_state := RunState.NeedInput })
        h0 hop h1 h2 h3 hread₂)

/-- Witness for C4: program `3,0,99` with an empty queue suspends with the
machine otherwise untouched. -/
theorem C4_need_input_suspension_witness :
    resume tryReadQueue writeVec 6 (Machine.new [3, 0, 99] [] []) =
      RunOutcome.done RunState.NeedInput
        ⟨[3, 0, 99], [], [], 0, 0, RunState.NeedInput, 0⟩ :=
  (C4_need_input_suspension (List Int) (List Int) tryReadQueue writeVec 5
    (Machine.new [3, 0, 99] [] []) 3 ParameterMode.Position ParameterMode.Position
    ParameterMode.Position [] rfl rfl rfl rfl rfl rfl
    (fun _ h => RunState.noConfusion h)).1

/-- C5: the memory contract — `load` returns the stored value below the
current extent and 0 at or past it (it never fails); a `store` at or past
the extent and below the `MAX_MEMORY` ceiling grows the tape to exactly
`address + 1` cells, zero-filling the gap and writing the value while
preserving the old contents; a growth `store` at or past the ceiling is
fatal. -/
theorem C5_memory_contract (tape : List Int) (a : Nat) (v : Int) :
    (∀ h : a < tape.length, load tape a = tape.get ⟨a, h⟩) ∧
    (tape.length ≤ a → load tape a = 0) ∧
    (tape.length ≤ a → a < MAX_MEMORY →
      ∃ t', store tape a v = some t' ∧
        t'.length = a + 1 ∧
        load t' a = v ∧
        (∀ i, i < tape.length → load t' i = load tape i) ∧
        (∀ i, tape.length ≤ i → i < a → load t' i = 0)) ∧
    (tape.length ≤ a → MAX_MEMORY ≤ a → store tape a v = none) := by
  refine ⟨fun h => ?_, fun h => ?_, fun hlen hmax => ?_, fun hlen hmax => ?_⟩
  · unfold load; rw [dif_pos h]
  · unfold load; rw [dif_neg (by omega)]
  · refine ⟨(tape ++ List.replicate (a + 1 - tape.length) 0).set a v, ?_, ?_, ?_, ?_, ?_⟩
    · unfold store
      rw [if_pos (by omega), if_pos hmax]
    · simp only [List.length_set, List.length_append, List.length_replicate]
      omega
    · have hlt : a < ((tape ++ List.replicate (a + 1 - tape.length) 0).set a v).length := by
        simp only [List.length_set, List.length_append, List.length_replicate]; omega
      unfold load
      rw [dif_pos hlt]
      simp only [List.get_eq_getElem]
      exact List.getElem_set_self _
    · intro i hi
      have hlt : i < ((tape ++ List.replicate (a + 1 - tape.length) 0).set a v).length := by
        simp only [List.length_set, List.length_append, List.length_replicate]; omega
      unfold load
      rw [dif_pos hlt, dif_pos hi]
      simp only [List.get_eq_getElem]
      rw [List.getElem_set_ne (by omega)]
      exact List.getElem_append_left hi
    · intro i h1 h2
      have hlt : i < ((tape ++ List.replicate (a + 1 - tape.length) 0).set a v).length := by
        simp only [List.length_set, List.length_append, List.length_replicate]; omega
      unfold load
      rw [dif_pos hlt]
      simp only [List.get_eq_getElem]
      rw [List.getElem_set_ne (by omega), List.getElem_append_right h1]
      exact List.getElem_replicate _ _
  · unfold store
    rw [if_pos (by omega), if_neg (by omega)]

/-- Witness for C5 at `tape = [7]`: a read past the extent, a growing store
just past the extent, and a fatal store at the ceiling. -/
theorem C5_memory_contract_witness :
    load [(7 : Int)] 3 = 0 ∧
    (store [(7 : Int)] 3 5).isSome = true ∧
    store [(7 : Int)] 1048576 5 = none :=
  ⟨(C5_memory_contract [7] 3 5).2.1 (by decide),
   by
    obtain ⟨t', hst, -, -, -, -⟩ :=
      (C5_memory_contract [7] 3 5).2.2.1 (by decide) (by decide)
    rw [hst]; rfl,
   (C5_memory_contract [7] 1048576 5).2.2.2 (by decide) (by decide)⟩

/-- A read at or past the current extent yields 0. -/
theorem load_past_extent (tape : List Int) (a : Nat) (h : tape.length ≤ a) :
    load tape a = 0 := by
  unfold load
  rw [dif_neg (by omega)]

/-- A growing store at or past the `MAX_MEMORY` ceiling is fatal. -/
theorem store_past_ceiling (tape : List Int) (a : Nat) (v : Int)
    (h1 : tape.length ≤ a) (h2 : MAX_MEMORY ≤ a) : store tape a v = none := by
  unfold store
  rw [if_pos (by omega), if_neg (by omega)]

/-- A negative `i64` in the `i64` range wraps under `as usize` to an address
of at least `2^63`. -/
theorem intToUsize_of_neg {x : Int} (h1 : -(2 ^ 63) ≤ x) (h2 : x < 0) :
    2 ^ 63 ≤ intToUsize x := by
  unfold intToUsize
  have e64 : (2 : Int) ^ 64 = 18446744073709551616 := by norm_num
  have e63 : (2 : Nat) ^ 63 = 9223372036854775808 := by norm_num
  have e63i : (2 : Int) ^ 63 = 9223372036854775808 := by norm_num
  rw [e64, e63]
  rw [e63i] at h1
  omega

/-- Counterexample to C6: program `4,-1,99` resolves its Output operand
through a negative pointer (`load(1) = -1 < 0`), yet the run does not abort:
it reads 0 from the wrapped address, outputs it and halts normally. -/
theorem C6_counterexample_negative_load_not_fatal :
    load [4, -1, 99] 1 = -1 ∧
    load_operand (Machine.new [4, -1, 99] ([] : List Int) ([] : List Int)) 1
      ParameterMode.Position = 0 ∧
    run_program tryReadQueue writeVec 10 (Machine.new [4, -1, 99] [] []) =
      RunOutcome.done (RunState.Stopped 0)
        ⟨[4, -1, 99], [], [0], 0, 2, RunState.Stopped 0, 0⟩ := by
  refine ⟨by decide, by decide, ?_⟩
  decide

/-- C6 as amended: a negative effective operand address is wrapped modulo
`2^64` to an address of at least `2^63`; an operand *load* there silently
reads 0 (no abort), while an operand *store* there is fatal, the wrapped
address being past both the tape extent and the `MAX_MEMORY` ceiling
(whenever the tape is no longer than the ceiling). -/
theorem C6_negative_address_wraps (ι ω : Type) (m : Machine ι ω) (offset : Nat)
    (v : Int) (hlen : m.tape.length ≤ 2 ^ 20) :
    (load m.tape offset < 0 → -(2 ^ 63) ≤ load m.tape offset →
      load_operand m offset ParameterMode.Position = 0 ∧
      store_operand m offset ParameterMode.Position v = none) ∧
    (load m.tape offset + m.relative_base < 0 →
      -(2 ^ 63) ≤ load m.tape offset + m.relative_base →
      load_operand m offset ParameterMode.Relative = 0 ∧
      store_operand m offset ParameterMode.Relative v = none) := by
  have big : ∀ x : Int, -(2 ^ 63) ≤ x → x < 0 →
      m.tape.length ≤ intToUsize x ∧ MAX_MEMORY ≤ intToUsize x := by
    intro x hx1 hx2
    have h := intToUsize_of_neg hx1 hx2
    have e63 : (2 : Nat) ^ 63 = 9223372036854775808 := by norm_num
    have e20 : (2 : Nat) ^ 20 = 1048576 := by norm_num
    unfold MAX_MEMORY
    rw [e63] at h
    rw [e20] at hlen
    omega
  constructor
  · intro hneg hrange
    obtain ⟨b1, b2⟩ := big _ hrange hneg
    exact ⟨load_past_extent _ _ b1, store_past_ceiling _ _ _ b1 b2⟩
  · intro hneg hrange
    obtain ⟨b1, b2⟩ := big _ hrange hneg
    exact ⟨load_past_extent _ _ b1, store_past_ceiling _ _ _ b1 b2⟩

/-- Witness for the amended C6 on the pointer `-1`. -/
theorem C6_negative_address_wraps_witness :
    load_operand (Machine.new [4, -1, 99] ([] : List Int) ([] : List Int)) 1
        ParameterMode.Position = 0 ∧
    store_operand (Machine.new [4, -1, 99] ([] : List Int) ([] : List Int)) 1
        ParameterMode.Position 5 = none :=
  (C6_negative_address_wraps (List Int) (List Int)
    (Machine.new [4, -1, 99] [] []) 1 5 (by decide)).1 (by decide) (by decide)

/-- C7: the echo program `3,0,4,0,99` fed the single input `v` halts and
outputs exactly `[v]`, for every 64-bit signed integer `v`. -/
theorem C7_echo_program (v : Int) (hlo : -(2 ^ 63) ≤ v) (hhi : v < 2 ^ 63) :
    run_program tryReadQueue writeVec 10 (Machine.new [3, 0, 4, 0, 99] [v] []) =
      RunOutcome.done (RunState.Stopped v)
        ⟨[v, 0, 4, 0, 99], [], [v], v, 4, RunState.Stopped v, 0⟩ ∧
    runOutputs 10 [3, 0, 4, 0, 99] [v] = some [v] := by
  have e1 : executeInstruction tryReadQueue writeVec (Machine.new [3, 0, 4, 0, 99] [v] []) =
      some (NextState.ContinueRelative 2,
        ⟨[v, 0, 4, 0, 99], [], [], 0, 0, RunState.NotYetStarted, 0⟩) :=
    exec_input_some (w := 3) rfl rfl rfl rfl rfl rfl rfl
  have e2 : executeInstruction tryReadQueue writeVec
      ⟨[v, 0, 4, 0, 99], [], [], 0, 2, RunState.NotYetStarted, 0⟩ =
      some (NextState.ContinueRelative 2,
        ⟨[v, 0, 4, 0, 99], [], [v], v, 2, RunState.NotYetStarted, 0⟩) :=
    exec_output (m := ⟨[v, 0, 4, 0, 99], [], [], 0, 2, RunState.NotYetStarted, 0⟩)
      (w := 4) rfl rfl rfl rfl rfl
  have e3 : executeInstruction tryReadQueue writeVec
      ⟨[v, 0, 4, 0, 99], [], [v], v, 4, RunState.NotYetStarted, 0⟩ =
      some (NextState.Terminate,
        ⟨[v, 0, 4, 0, 99], [], [v], v, 4, RunState.NotYetStarted, 0⟩) :=
    exec_halt (m := ⟨[v, 0, 4, 0, 99], [], [v], v, 4, RunState.NotYetStarted, 0⟩)
      (w := 99) rfl rfl rfl rfl rfl
  have hrun : run_program tryReadQueue writeVec 10 (Machine.new [3, 0, 4, 0, 99] [v] []) =
      RunOutcome.done (RunState.Stopped v)
        ⟨[v, 0, 4, 0, 99], [], [v], v, 4, RunState.Stopped v, 0⟩ :=
    calc
      run_program tryReadQueue writeVec 10 (Machine.new [3, 0, 4, 0, 99] [v] []) =
          resumeLoop tryReadQueue writeVec 10 (Machine.new [3, 0, 4, 0, 99] [v] []) := by
            exact resume_not_stopped (fun w h => RunState.noConfusion h)
      _ = resumeLoop tryReadQueue writeVec 9
            ⟨[v, 0, 4, 0, 99], [], [], 0, 2, RunState.NotYetStarted, 0⟩ :=
          resumeLoop_relative e1
      _ = resumeLoop tryReadQueue writeVec 8
            ⟨[v, 0, 4, 0, 99], [], [v], v, 4, RunState.NotYetStarted, 0⟩ :=
          resumeLoop_relative e2
      _ = RunOutcome.done (RunState.Stopped v)
            ⟨[v, 0, 4, 0, 99], [], [v], v, 4, RunState.Stopped v, 0⟩ :=
          resumeLoop_terminate e3
  refine ⟨hrun, ?_⟩
  unfold runOutputs
  rw [hrun]

/-- Witness for C7 at `v = 42`, as in the Rust `input_output` test. -/
theorem C7_echo_program_witness :
    runOutputs 10 [3, 0, 4, 0, 99] [42] = some [42] :=
  (C7_echo_program 42 (by norm_num) (by norm_num)).2

set_option maxRecDepth 100000 in
/-- C8: the relative-base quine halts on empty input with its own source,
verbatim and in order, as its output. -/
theorem C8_quine :
    runOutputs 200 [109, 1, 204, -1, 1001, 100, 1, 100, 1008, 100, 16, 101, 1006, 101, 0, 99] []
      = some [109, 1, 204, -1, 1001, 100, 1, 100, 1008, 100, 16, 101, 1006, 101, 0, 99] := by
  decide

/-- The discarding output carrier whose `write` always reports failure, used
to witness C9. -/
def writeAlwaysErr (_u : Unit) (_x : Int) : Unit × Bool := ((), false)

/-- C9: when an `Output` instruction's carrier write fails, execution does
not abort: the operand value is still recorded as the last output and the
instruction completes with the same `ContinueRelative 2` advance and the
same machine (up to the carrier's own state) as on a successful write — the
formula below does not mention the write's success flag at all. -/
theorem C9_output_write_failure_swallowed (ι ω : Type) (tr : ι → Option Int × ι)
    (wr : ω → Int → ω × Bool) (m : Machine ι ω) (w : Nat)
    (pm0 pm1 pm2 : ParameterMode)
    (h0 : intToU32 (load m.tape m.ip) = w) (hop : opcodeOf w = 4)
    (h1 : paramMode (modeDigit w 1) = some pm0)
    (h2 : paramMode (modeDigit w 2) = some pm1)
    (h3 : paramMode (modeDigit w 3) = some pm2)
    (hfail : (wr m.output (load_operand m (m.ip + 1) pm0)).2 = false) :
    executeInstruction tr wr m =
      some (NextState.ContinueRelative 2,
        { m with output := (wr m.output (load_operand m (m.ip + 1) pm0)).1,
                 last_output := load_operand m (m.ip + 1) pm0 }) :=
  exec_output h0 hop h1 h2 h3

/-- Witness for C9: program `4,0,99` writing to a carrier whose `write`
always fails still records 4 as the last output and advances. -/
theorem C9_output_write_failure_swallowed_witness :
    executeInstruction tryReadQueue writeAlwaysErr (Machine.new [4, 0, 99] [] ()) =
      some (NextState.ContinueRelative 2,
        ⟨[4, 0, 99], [], (), 4, 0, RunState.NotYetStarted, 0⟩) :=
  C9_output_write_failure_swallowed (List Int) Unit tryReadQueue writeAlwaysErr
    (Machine.new [4, 0, 99] [] ()) 4 ParameterMode.Position ParameterMode.Position
    ParameterMode.Position rfl rfl rfl rfl rfl rfl

/-- If the instruction loop runs to a `Stopped v` outcome and opcode 4
(Output) never occurs in the executed-opcode trace, the stopping value is
the machine's incoming `last_output`. -/
theorem resumeLoop_stopped_eq_last_output {tr : ι → Option Int × ι}
    {wr : ω → Int → ω × Bool} :
    ∀ (fuel : Nat) (m m₂ : Machine ι ω) (v : Int),
      resumeLoop tr wr fuel m = RunOutcome.done (RunState.Stopped v) m₂ →
      4 ∉ traceLoop tr wr fuel m → v = m.last_output := by
  intro fuel
  induction fuel with
  | zero =>
    intro m m₂ v h _
    exact absurd h (fun hc => RunOutcome.noConfusion hc)
  | succ n ih =>
    intro m m₂ v h htr
    rw [resumeLoop] at h
    rw [traceLoop] at htr
    cases hE : executeInstruction tr wr m with
    | none =>
      rw [hE] at h
      exact RunOutcome.noConfusion h
    | some p =>
      obtain ⟨ns, m'⟩ := p
      rw [hE] at h htr
      cases ns with
      | ContinueAbsolute offset =>
        have htr2 : 4 ∉ opcodeOf (intToU32 (load m.tape m.ip)) ::
            traceLoop tr wr n { m' with ip := offset } := htr
        rw [List.mem_cons] at htr2
        push_neg at htr2
        obtain ⟨hop, htail⟩ := htr2
        have h2 : resumeLoop tr wr n { m' with ip := offset } =
            RunOutcome.done (RunState.Stopped v) m₂ := h
        rw [ih _ m₂ v h2 htail]
        show m'.last_output = m.last_output
        exact exec_last_output_of_ne hE (Ne.symm hop)
      | ContinueRelative offset =>
        have htr2 : 4 ∉ opcodeOf (intToU32 (load m.tape m.ip)) ::
            traceLoop tr wr n { m' with ip := intToUsize ((m'.ip : Int) + offset) } := htr
        rw [List.mem_cons] at htr2
        push_neg at htr2
        obtain ⟨hop, htail⟩ := htr2
        have h2 : resumeLoop tr wr n { m' with ip := intToUsize ((m'.ip : Int) + offset) } =
            RunOutcome.done (RunState.Stopped v) m₂ := h
        rw [ih _ m₂ v h2 htail]
        show m'.last_output = m.last_output
        exact exec_last_output_of_ne hE (Ne.symm hop)
      | NeedInput =>
        have h2 : RunOutcome.done RunState.NeedInput
            { m' with run_state := RunState.NeedInput } =
            RunOutcome.done (RunState.Stopped v) m₂ := h
        injection h2 with ha _
        exact RunState.noConfusion ha
      | Terminate =>
        have htr2 : 4 ∉ [opcodeOf (intToU32 (load m.tape m.ip))] := htr
        rw [List.mem_singleton] at htr2
        have h2 : RunOutcome.done (RunState.Stopped m'.last_output)
            { m' with run_state := RunState.Stopped m'.last_output } =
            RunOutcome.done (RunState.Stopped v) m₂ := h
        injection h2 with ha _
        injection ha with hv
        rw [← hv]
        exact exec_last_output_of_ne hE (Ne.symm htr2)

/-- C10: a run that stops (reaches opcode 99) without ever executing an
Output instruction (opcode 4 never occurs in the executed-opcode trace)
returns `Stopped 0`: the last-output value defaults to the 0 installed by
the constructor. -/
theorem C10_stop_without_output_is_zero (ι ω : Type) (tr : ι → Option Int × ι)
    (wr : ω → Int → ω × Bool) (program : List Int) (inp : ι) (out : ω)
    (fuel : Nat) (v : Int) (m₂ : Machine ι ω)
    (htr : 4 ∉ traceLoop tr wr fuel (Machine.new program inp out))
    (hrun : run_program tr wr fuel (Machine.new program inp out) =
      RunOutcome.done (RunState.Stopped v) m₂) :
    v = 0 := by
  have h0 : run_program tr wr fuel (Machine.new program inp out) =
      resumeLoop tr wr fuel (Machine.new program inp out) :=
    resume_not_stopped (fun w h => RunState.noConfusion h)
  rw [h0] at hrun
  exact resumeLoop_stopped_eq_last_output fuel _ m₂ v hrun htr

/-- Witness for C10: the one-instruction program `99` never outputs and
stops with value 0. -/
theorem C10_stop_without_output_is_zero_witness :
    4 ∉ traceLoop tryReadQueue writeVec 10 (Machine.new [99] ([] : List Int) ([] : List Int)) ∧
    run_program tryReadQueue writeVec 10 (Machine.new [99] [] []) =
      RunOutcome.done (RunState.Stopped 0) ⟨[99], [], [], 0, 0, RunState.Stopped 0, 0⟩ ∧
    (0 : Int) = 0 :=
  ⟨by decide, by decide,
   C10_stop_without_output_is_zero (List Int) (List Int) tryReadQueue writeVec [99] [] [] 10 0
     ⟨[99], [], [], 0, 0, RunState.Stopped 0, 0⟩ (by decide) (by decide)⟩

end Intcode
